import Mathlib

/-!
Shallow embedding of the ALwrity AI Brand Name Generator core
(`src/brand_name_generator.py`): the availability heuristic
(`is_likely_taken_business_name`, `check_domain_availability`), the
name tokenizer inside `generate_names_with_domain_validation`, and the
bounded generate-validate-retry session loop itself.

Strings are embedded as `List Char`.  Python string operations are
embedded char-by-char: `.lower()` as `Char.toLower` mapping, `.strip()`
as trimming whitespace from both ends, substring membership (`in`) as a
contiguous-sublist scan, `.startswith`/`.endswith` as prefix/suffix
tests.  The external collaborators (the Gemini generation client and
the DNS registry probe) are parameters: the probe is a function from a
domain string to an outcome (resolved / name-not-found / timeout /
other error), mirroring `socket.gethostbyname` raising `socket.gaierror`,
`socket.timeout`, or another exception; the generation client is a
function from the attempt number to either a textual response, a `None`
response, or a raised exception.
-/

namespace BrandGen

/-- Whitespace trimmed by Python `str.strip()` (ASCII range; the source
only ever feeds ASCII text through these helpers). -/
def isPySpace (c : Char) : Bool :=
  c = ' ' || c = '\t' || c = '\n' || c = '\r'

/-- Python `s.strip()`: drop whitespace from both ends. -/
def pyStrip (s : List Char) : List Char :=
  ((s.dropWhile isPySpace).reverse.dropWhile isPySpace).reverse

/-- Python `s.lower()`: char-wise lowercasing. -/
def pyLower (s : List Char) : List Char :=
  s.map Char.toLower

/-- Python substring test `pat in s` (contiguous occurrence). -/
def isSubstring (pat : List Char) : List Char → Bool
  | [] => pat.isEmpty
  | c :: rest => pat.isPrefixOf (c :: rest) || isSubstring pat rest

/-- Python `str.isalnum()` on the ASCII names this program handles. -/
def isAlnumChar (c : Char) : Bool :=
  c.isAlpha || c.isDigit

/-! Fixed reference lists, transcribed from `is_likely_taken_business_name`
and `check_domain_availability` in `src/brand_name_generator.py`. -/

/-- The `common_patterns` list of `is_likely_taken_business_name`. -/
def common_patterns : List (List Char) :=
  (["tech", "digital", "smart", "pro", "max", "ultra", "mega", "super",
    "quick", "fast", "easy", "simple", "best", "top", "prime", "elite",
    "premium", "gold", "silver", "platinum", "diamond", "crystal",
    "global", "world", "universe", "planet", "space", "cosmic", "galaxy",
    "international", "worldwide", "universal", "infinite", "eternal",
    "future", "next", "new", "modern", "advanced", "cutting", "edge",
    "innovative", "creative", "dynamic", "revolutionary", "breakthrough",
    "solutions", "systems", "services", "group", "corp", "inc", "llc",
    "labs", "works", "studio", "agency", "consulting", "enterprises",
    "ventures", "holdings", "industries", "technologies", "innovations",
    "creative", "design", "art", "craft", "forge", "foundry", "mill",
    "factory", "workshop", "atelier", "boutique", "gallery", "studio",
    "mind", "write", "gen", "smith", "verb", "intelli", "scribble",
    "word", "text", "content", "copy", "script", "draft", "edit",
    "grammar", "language", "linguistic", "vocabulary", "dictionary"]).map String.data

/-- The `ai_tech_terms` list of `is_likely_taken_business_name`. -/
def ai_tech_terms : List (List Char) :=
  (["ai", "ml", "data", "cloud", "app", "web", "mobile", "software",
    "platform", "api", "sdk", "dev", "code", "tech", "digital",
    "intelli", "smart", "auto", "robo", "cyber", "neo", "quantum",
    "blockchain", "crypto", "fintech", "edtech", "healthtech",
    "programming", "coding", "development", "engineering", "architecture",
    "framework", "library", "toolkit", "suite", "package", "module",
    "virtual", "augmented", "mixed", "reality", "metaverse", "nft",
    "machine", "learning", "deep", "neural", "algorithm", "model"]).map String.data

/-- The `business_suffixes` list local to `is_likely_taken_business_name`
(8 entries, distinct from the cleaning list in `check_domain_availability`). -/
def business_suffixes_pattern : List (List Char) :=
  (["corp", "inc", "llc", "ltd", "co", "group", "systems", "solutions"]).map String.data

/-- The `business_prefixes` list of `is_likely_taken_business_name`. -/
def business_prefixes : List (List Char) :=
  (["new", "pro", "smart", "digital", "global", "world", "future"]).map String.data

/-- The `generic_combinations` list of `is_likely_taken_business_name`. -/
def generic_combinations : List (List Char) :=
  (["new tech", "pro solutions", "smart systems", "digital services",
    "global tech", "world solutions", "future systems", "next generation"]).map String.data

/-- The `common_words` well-known-brand list of `check_domain_availability`. -/
def common_words : List (List Char) :=
  (["apple", "google", "microsoft", "amazon", "facebook", "twitter",
    "linkedin", "instagram", "youtube", "netflix", "spotify", "uber",
    "airbnb", "tesla", "spacex", "openai", "anthropic", "stripe",
    "paypal", "square", "shopify", "salesforce", "oracle", "ibm"]).map String.data

/-- Embedding of `is_likely_taken_business_name(name)`: the layered
pattern detector.  Each Python `for`-loop returning `True` on the first
match becomes a `List.any`. -/
def is_likely_taken_business_name (name : List Char) : Bool :=
  if name.isEmpty || (pyStrip name).length < 2 then true
  else
    if common_patterns.any (fun p => isSubstring p (pyStrip (pyLower name))) then true
    else if ai_tech_terms.any (fun t => isSubstring t (pyStrip (pyLower name))) then true
    else if business_suffixes_pattern.any
        (fun suf => suf.isSuffixOf (pyStrip (pyLower name))) then true
    else if business_prefixes.any
        (fun pre => pre.isPrefixOf (pyStrip (pyLower name))) then true
    else if generic_combinations.any
        (fun combo => isSubstring combo (pyStrip (pyLower name))) then true
    else false

/-! Name normalization at the top of `check_domain_availability`. -/

/-- Separator characters removed by the chained `replace` calls
(space, hyphen, underscore, dot). -/
def sepChars : List Char := [' ', '-', '_', '.']

/-- The chained `replace` calls of `check_domain_availability`: drop
every occurrence of each separator char. -/
def stripSeparators (s : List Char) : List Char :=
  s.filter (fun c => !(c ∈ sepChars))

/-- The `business_suffixes` cleaning list of `check_domain_availability`
(10 entries, iterated in this order). -/
def business_suffixes : List (List Char) :=
  (["inc", "llc", "corp", "ltd", "co", "group", "systems", "solutions",
    "tech", "digital"]).map String.data

/-- One iteration of the suffix-stripping `for` loop:
`if clean_name.endswith(suffix): clean_name = clean_name[:-len(suffix)]`. -/
def stripOnce (acc suf : List Char) : List Char :=
  if suf.isSuffixOf acc then acc.take (acc.length - suf.length) else acc

/-- The whole suffix-stripping `for` loop over `business_suffixes`. -/
def stripSuffixes (s : List Char) : List Char :=
  business_suffixes.foldl stripOnce s

/-- The `clean_name` computed by `check_domain_availability`:
`domain_name.lower().strip()`, separators removed, then the suffix loop. -/
def cleanName (name : List Char) : List Char :=
  stripSuffixes (stripSeparators (pyStrip (pyLower name)))

/-! The registry probe layer (`socket.gethostbyname` per extension). -/

/-- Outcome of one `socket.gethostbyname(test_domain)` call:
successful resolution, `socket.gaierror` (name not found),
`socket.timeout`, or any other exception. -/
inductive ProbeResult where
  | resolved : ProbeResult
  | notFound : ProbeResult
  | timeout : ProbeResult
  | error : ProbeResult
deriving DecidableEq

/-- The `extensions` list checked by `check_domain_availability`. -/
def extensions : List (List Char) :=
  ([".com", ".net", ".org", ".io", ".co", ".biz", ".info"]).map String.data

/-- The major extensions whose resolution immediately returns `False`. -/
def major_extensions : List (List Char) :=
  ([".com", ".net", ".org"]).map String.data

/-- Result of running the probe `for` loop: `verdict = some false` means
the loop returned `False` early (major hit, timeout, or error); `none`
means the loop fell through to the later checks.  `takenCount` is
`domain_taken_count`; `probed` records the domains actually queried. -/
structure ProbeOut where
  verdict : Option Bool
  takenCount : Nat
  probed : List (List Char)
deriving DecidableEq

/-- Embedding of the `for ext in extensions` probe loop of
`check_domain_availability`, instrumented with the list of queried
domains. -/
def probeLoop (probe : List Char → ProbeResult) (clean : List Char) :
    List (List Char) → Nat → ProbeOut
  | [], cnt => ⟨none, cnt, []⟩
  | ext :: rest, cnt =>
    match probe (clean ++ ext) with
    | ProbeResult.notFound =>
        let o := probeLoop probe clean rest cnt
        ⟨o.verdict, o.takenCount, (clean ++ ext) :: o.probed⟩
    | ProbeResult.timeout => ⟨some false, cnt, [clean ++ ext]⟩
    | ProbeResult.error => ⟨some false, cnt, [clean ++ ext]⟩
    | ProbeResult.resolved =>
        if ext ∈ major_extensions then ⟨some false, cnt + 1, [clean ++ ext]⟩
        else
          let o := probeLoop probe clean rest (cnt + 1)
          ⟨o.verdict, o.takenCount, (clean ++ ext) :: o.probed⟩

/-- Instrumented result of `check_domain_availability`: its boolean
return value, the domains actually probed, and whether control reached
the post-probe pattern/word/shape checks (Steps 2-5 of the source). -/
structure CheckTrace where
  result : Bool
  probed : List (List Char)
  patternChecked : Bool
deriving DecidableEq

/-- Steps 2-5 of `check_domain_availability` (business-pattern check,
known-word check, short-generic check, repeated-character check,
multiple-extensions check), reached only when the probe loop fell
through.  Python compares `len(set(clean_name)) < len(clean_name) * 0.6`
with the float literal `0.6`; for the integer operands arising here this
comparison has the same truth value as the exact rational comparison,
embedded as `5 * distinct < 3 * length`. -/
def checkPattern (clean : List Char) (cnt : Nat) (ds : List (List Char)) : CheckTrace :=
  if is_likely_taken_business_name clean then ⟨false, ds, true⟩
  else if clean ∈ common_words then ⟨false, ds, true⟩
  else if clean.length ≤ 4 && clean.all Char.isAlpha then ⟨false, ds, true⟩
  else if 5 * clean.dedup.length < 3 * clean.length then ⟨false, ds, true⟩
  else if 2 ≤ cnt then ⟨false, ds, true⟩
  else ⟨true, ds, true⟩

/-- The part of `check_domain_availability` after the shape guards:
run the probe loop, then either return its early verdict or fall
through to the pattern checks. -/
def checkAfterShape (probe : List Char → ProbeResult) (clean : List Char) : CheckTrace :=
  match (probeLoop probe clean extensions 0).verdict with
  | some r => ⟨r, (probeLoop probe clean extensions 0).probed, false⟩
  | none =>
      checkPattern clean (probeLoop probe clean extensions 0).takenCount
        (probeLoop probe clean extensions 0).probed

/-- Instrumented embedding of `check_domain_availability(domain_name)`:
empty-name guard, normalization, shape guards (length ≥ 2, alphanumeric),
probe loop, then pattern checks. -/
def check_domain_availability_t (probe : List Char → ProbeResult)
    (domain_name : List Char) : CheckTrace :=
  if (pyStrip domain_name).isEmpty then ⟨false, [], false⟩
  else if (cleanName domain_name).length < 2 then ⟨false, [], false⟩
  else if !(cleanName domain_name).all isAlnumChar then ⟨false, [], false⟩
  else checkAfterShape probe (cleanName domain_name)

/-- The boolean verdict of `check_domain_availability` (`True` =
Available, `False` = Taken). -/
def check_domain_availability (probe : List Char → ProbeResult)
    (domain_name : List Char) : Bool :=
  (check_domain_availability_t probe domain_name).result

/-! The tokenizer inside `generate_names_with_domain_validation`:
`for name in brand_names.split(backslash-n): cleaned_name =
name.strip().lstrip(enumeration chars); keep if len > 1`. -/

/-- The character set of the `lstrip` call: digits, dot, space, hyphen,
bullet, asterisk.  Note it contains neither a closing parenthesis nor a
colon. -/
def enumStripChars : List Char :=
  ("0123456789. -•*").data

/-- Cleaning of one line: `name.strip().lstrip(enumStripChars)`. -/
def cleanToken (line : List Char) : List Char :=
  (pyStrip line).dropWhile (fun c => c ∈ enumStripChars)

/-- Python `text.split` on the newline char (empty segments kept). -/
def splitLines : List Char → List (List Char)
  | [] => [[]]
  | c :: rest =>
    if c = '\n' then [] :: splitLines rest
    else
      match splitLines rest with
      | [] => [[c]]
      | l :: ls => (c :: l) :: ls

/-- The whole parsing step: split into lines, clean each, keep the
cleaned lines of length greater than 1. -/
def tokenize (raw : List Char) : List (List Char) :=
  (splitLines raw).filterMap fun line =>
    if 1 < (cleanToken line).length then some (cleanToken line) else none

/-! The session loop `generate_names_with_domain_validation`. -/

/-- Behaviour of one call to the generation backend
(`gemini_text_response` as seen through `generate_brand_names`): a
response text (possibly the RATE_LIMIT marker, possibly empty), a `None`
response, or a raised exception. -/
inductive GenAction where
  | respond : Option (List Char) → GenAction
  | raiseExn : GenAction
deriving DecidableEq

/-- The distinguished rate-limit marker string. -/
def RATE_LIMIT : List Char :=
  ("RATE_LIMIT").data

/-- Events surfaced to the Streamlit reporting layer by the generation
and session code, in emission order. -/
inductive Event where
  | rateLimitWarning : Event
  | genFailedError : Event
  | noValidNamesWarning : Event
  | attemptFailed : Nat → Event
  | acceptedEv : List Char → Event
  | rejectedEv : List Char → Event
deriving DecidableEq

/-- Embedding of `generate_brand_names`: pass the backend response
through, converting the RATE_LIMIT marker into a `None` result plus a
distinct rate-limit warning event. -/
def generate_brand_names (resp : Option (List Char)) :
    Option (List Char) × List Event :=
  match resp with
  | some t =>
      if t = RATE_LIMIT then (none, [Event.rateLimitWarning]) else (some t, [])
  | none => (none, [])

/-- Mutable local state of one `generate_names_with_domain_validation`
run: `unique_names`, `attempt`, the number of `generate_brand_names`
calls made (instrumentation), `total_checked`, `total_rejected`, and
the emitted events. -/
structure SessSt where
  uniqueNames : List (List Char)
  attempt : Nat
  genCalls : Nat
  totalChecked : Nat
  totalRejected : Nat
  events : List Event
deriving DecidableEq

/-- The zeroed state at the top of the session function. -/
def initSt : SessSt :=
  ⟨[], 0, 0, 0, 0, []⟩

/-- Result of one session: the Python return value (`None` or the list
of unique names) plus the final internal state, kept for
instrumentation. -/
structure SessionResult where
  output : Option (List (List Char))
  uniqueNames : List (List Char)
  attempts : Nat
  genCalls : Nat
  totalChecked : Nat
  totalRejected : Nat
  events : List Event
deriving DecidableEq

/-- End of the loop (target reached or attempts exhausted): return
`None` when nothing was accumulated, else the accumulated names. -/
def finalize (st : SessSt) : SessionResult :=
  ⟨if st.uniqueNames.isEmpty then none else some st.uniqueNames,
    st.uniqueNames, st.attempt, st.genCalls, st.totalChecked,
    st.totalRejected, st.events⟩

/-- The early `return None` taken when the generation result is falsy:
the session ends immediately with a `None` output. -/
def earlyFail (st : SessSt) : SessionResult :=
  ⟨none, st.uniqueNames, st.attempt, st.genCalls, st.totalChecked,
    st.totalRejected, st.events⟩

/-- The inner `for name in names_list` validation loop: skip names
already accepted, count each evaluated candidate, accept or reject it,
and break once the target is reached. -/
def processCandidates (probe : List Char → ProbeResult) (target : Nat) :
    List (List Char) → SessSt → SessSt
  | [], st => st
  | n :: rest, st =>
    if !n.isEmpty && !(n ∈ st.uniqueNames) then
      if check_domain_availability probe n then
        if target ≤ (st.uniqueNames ++ [n]).length then
          { st with uniqueNames := st.uniqueNames ++ [n],
                    totalChecked := st.totalChecked + 1,
                    events := st.events ++ [Event.acceptedEv n] }
        else
          processCandidates probe target rest
            { st with uniqueNames := st.uniqueNames ++ [n],
                      totalChecked := st.totalChecked + 1,
                      events := st.events ++ [Event.acceptedEv n] }
      else
        processCandidates probe target rest
          { st with totalChecked := st.totalChecked + 1,
                    totalRejected := st.totalRejected + 1,
                    events := st.events ++ [Event.rejectedEv n] }
    else processCandidates probe target rest st

/-- The `while len(unique_names) < target_names and attempt <
max_attempts` loop.  `fuel` is the number of attempts still permitted
(`max_attempts - attempt`), so the loop condition `attempt <
max_attempts` is exactly `fuel > 0`. -/
def sessionGo (gen : Nat → GenAction) (probe : List Char → ProbeResult)
    (target : Nat) : Nat → SessSt → SessionResult
  | 0, st => finalize st
  | fuel + 1, st =>
    if st.uniqueNames.length < target then
      match gen (st.attempt + 1) with
      | GenAction.raiseExn =>
          sessionGo gen probe target fuel
            { st with attempt := st.attempt + 1, genCalls := st.genCalls + 1,
                      events := st.events ++ [Event.attemptFailed (st.attempt + 1)] }
      | GenAction.respond resp =>
          match generate_brand_names resp with
          | (none, evs) =>
              earlyFail
                { st with attempt := st.attempt + 1, genCalls := st.genCalls + 1,
                          events := st.events ++ evs ++ [Event.genFailedError] }
          | (some t, evs) =>
              if t.isEmpty then
                earlyFail
                  { st with attempt := st.attempt + 1, genCalls := st.genCalls + 1,
                            events := st.events ++ evs ++ [Event.genFailedError] }
              else if (tokenize t).isEmpty then
                sessionGo gen probe target fuel
                  { st with attempt := st.attempt + 1, genCalls := st.genCalls + 1,
                            events := st.events ++ evs ++ [Event.noValidNamesWarning] }
              else
                sessionGo gen probe target fuel
                  (processCandidates probe target (tokenize t)
                    { st with attempt := st.attempt + 1,
                              genCalls := st.genCalls + 1,
                              events := st.events ++ evs })
    else finalize st

/-- One full run of `generate_names_with_domain_validation` with target
count `target` and attempt budget `maxAttempts` (3 in the source). -/
def runSession (gen : Nat → GenAction) (probe : List Char → ProbeResult)
    (target maxAttempts : Nat) : SessionResult :=
  sessionGo gen probe target maxAttempts initSt

/-- Cumulative `st.session_state.validation_stats` counters
(`total_checked`, `total_rejected`, `total_approved`). -/
structure GlobalStats where
  total_checked : Nat
  total_rejected : Nat
  total_approved : Nat
deriving DecidableEq

/-- The merge of a session into the cumulative counters (lines 552-564
of the source); it is reached only when the session returns a non-empty
list, i.e. when `output` is not `None`. -/
def mergeStats (g : GlobalStats) (r : SessionResult) : GlobalStats :=
  match r.output with
  | none => g
  | some names =>
      ⟨g.total_checked + r.totalChecked, g.total_rejected + r.totalRejected,
        g.total_approved + names.length⟩

/-- The shape guards at the front of `check_domain_availability`:
falsy name, cleaned length below 2, or non-alphanumeric characters. -/
def shapeRejected (name : List Char) : Bool :=
  (pyStrip name).isEmpty || (cleanName name).length < 2
    || !(cleanName name).all isAlnumChar

/-! Helper lemmas about the probe loop. -/

/-- The probe loop never produces an early `Available` verdict: an early
exit is always a rejection. -/
theorem probeLoop_verdict_ne_true (probe : List Char → ProbeResult)
    (clean : List Char) (l : List (List Char)) :
    ∀ cnt, (probeLoop probe clean l cnt).verdict ≠ some true := by
  induction l with
  | nil => intro cnt; simp [probeLoop]
  | cons ext rest ih =>
    intro cnt
    cases h : probe (clean ++ ext) with
    | notFound => simpa [probeLoop, h] using ih cnt
    | timeout => simp [probeLoop, h]
    | error => simp [probeLoop, h]
    | resolved =>
      by_cases hm : ext ∈ major_extensions
      · simp [probeLoop, h, hm]
      · simpa [probeLoop, h, hm] using ih (cnt + 1)

/-- If some extension in the remaining list makes the probe time out or
raise, the probe loop exits early (with a verdict). -/
theorem probeLoop_verdict_isSome (probe : List Char → ProbeResult)
    (clean : List Char) (l : List (List Char)) :
    ∀ cnt, (∃ ext ∈ l, probe (clean ++ ext) = ProbeResult.timeout
        ∨ probe (clean ++ ext) = ProbeResult.error) →
      (probeLoop probe clean l cnt).verdict.isSome := by
  induction l with
  | nil => intro cnt h; simp at h
  | cons ext rest ih =>
    intro cnt h
    rcases h with ⟨e, he, hbad⟩
    rcases List.mem_cons.mp he with rfl | hmem
    · rcases hbad with h1 | h1 <;> simp [probeLoop, h1]
    · cases hp : probe (clean ++ ext) with
      | notFound => simpa [probeLoop, hp] using ih cnt ⟨e, hmem, hbad⟩
      | timeout => simp [probeLoop, hp]
      | error => simp [probeLoop, hp]
      | resolved =>
        by_cases hm : ext ∈ major_extensions
        · simp [probeLoop, hp, hm]
        · simpa [probeLoop, hp, hm] using ih (cnt + 1) ⟨e, hmem, hbad⟩

/-- If the probe loop falls through (no early verdict), it has queried
every extension in the list. -/
theorem probeLoop_none_probed_length (probe : List Char → ProbeResult)
    (clean : List Char) (l : List (List Char)) :
    ∀ cnt, (probeLoop probe clean l cnt).verdict = none →
      (probeLoop probe clean l cnt).probed.length = l.length := by
  induction l with
  | nil => intro cnt _; simp [probeLoop]
  | cons ext rest ih =>
    intro cnt hnone
    cases hp : probe (clean ++ ext) with
    | notFound =>
        rw [probeLoop] at hnone ⊢
        simp only [hp] at hnone ⊢
        simpa using ih cnt hnone
    | timeout => simp [probeLoop, hp] at hnone
    | error => simp [probeLoop, hp] at hnone
    | resolved =>
      by_cases hm : ext ∈ major_extensions
      · simp [probeLoop, hp, hm] at hnone
      · rw [probeLoop] at hnone ⊢
        simp only [hp, if_neg hm] at hnone ⊢
        simpa using ih (cnt + 1) hnone

/-- An early probe-loop verdict is `some false`. -/
theorem probeLoop_verdict_eq_false (probe : List Char → ProbeResult)
    (clean : List Char) (l : List (List Char)) (cnt : Nat)
    (h : (probeLoop probe clean l cnt).verdict.isSome) :
    (probeLoop probe clean l cnt).verdict = some false := by
  rcases hv : (probeLoop probe clean l cnt).verdict with _ | b
  · rw [hv] at h; simp at h
  · cases b
    · rfl
    · exact absurd hv (probeLoop_verdict_ne_true probe clean l cnt)

/-- The post-probe check block always marks the pattern layer as
evaluated and passes the probed-domain list through. -/
theorem checkPattern_patternChecked (clean : List Char) (cnt : Nat)
    (ds : List (List Char)) :
    (checkPattern clean cnt ds).patternChecked = true ∧
      (checkPattern clean cnt ds).probed = ds := by
  unfold checkPattern
  repeat' split
  all_goals exact ⟨rfl, rfl⟩

/-! Helper lemmas about the inner candidate loop. -/

/-- The candidate loop does not touch the attempt counter or the
generation-call counter. -/
theorem processCandidates_counters (probe : List Char → ProbeResult)
    (target : Nat) (names : List (List Char)) :
    ∀ st, (processCandidates probe target names st).attempt = st.attempt
      ∧ (processCandidates probe target names st).genCalls = st.genCalls := by
  induction names with
  | nil => intro st; exact ⟨rfl, rfl⟩
  | cons n rest ih =>
    intro st
    rw [processCandidates]
    split
    · split
      · split
        · exact ⟨rfl, rfl⟩
        · exact ih _
      · exact ih _
    · exact ih st

/-- Each evaluated candidate is counted exactly once, as accepted or as
rejected: the candidate loop preserves
`totalChecked = totalRejected + |uniqueNames|`. -/
theorem processCandidates_inv (probe : List Char → ProbeResult)
    (target : Nat) (names : List (List Char)) :
    ∀ st, st.totalChecked = st.totalRejected + st.uniqueNames.length →
      (processCandidates probe target names st).totalChecked =
        (processCandidates probe target names st).totalRejected +
          (processCandidates probe target names st).uniqueNames.length := by
  induction names with
  | nil => intro st h; exact h
  | cons n rest ih =>
    intro st h
    rw [processCandidates]
    split
    · split
      · split
        · simp only [List.length_append, List.length_cons, List.length_nil]
          omega
        · refine ih _ ?_
          simp only [List.length_append, List.length_cons, List.length_nil]
          omega
      · refine ih _ ?_
        simp only []
        omega
    · exact ih st h

/-- Accepted names stay duplicate-free: a candidate is only appended
when it is not already present. -/
theorem processCandidates_nodup (probe : List Char → ProbeResult)
    (target : Nat) (names : List (List Char)) :
    ∀ st, st.uniqueNames.Nodup →
      (processCandidates probe target names st).uniqueNames.Nodup := by
  induction names with
  | nil => intro st h; exact h
  | cons n rest ih =>
    intro st h
    rw [processCandidates]
    split
    · rename_i hcond
      have hnotmem : n ∉ st.uniqueNames := by
        simp only [Bool.and_eq_true, Bool.not_eq_true', decide_eq_false_iff_not] at hcond
        exact hcond.2
      have happ : (st.uniqueNames ++ [n]).Nodup := by
        rw [List.nodup_append]
        refine ⟨h, List.nodup_singleton n, ?_⟩
        intro a ha hb
        rw [List.mem_singleton] at hb
        subst hb
        exact hnotmem ha
      split
      · split
        · exact happ
        · exact ih _ happ
      · exact ih _ h
    · exact ih st h

/-! Helper lemmas about the outer session loop. -/

/-- The loop makes at most `fuel` further generation calls. -/
theorem sessionGo_genCalls (gen : Nat → GenAction)
    (probe : List Char → ProbeResult) (target : Nat) :
    ∀ fuel st, (sessionGo gen probe target fuel st).genCalls ≤ st.genCalls + fuel := by
  intro fuel
  induction fuel with
  | zero => intro st; simp [sessionGo, finalize]
  | succ fuel ih =>
    intro st
    rw [sessionGo]
    split
    · cases hg : gen (st.attempt + 1) with
      | raiseExn =>
          refine le_trans (ih _) ?_
          simp only []
          omega
      | respond resp =>
          rcases hgen : generate_brand_names resp with ⟨bn, evs⟩
          cases bn with
          | none =>
              simp only [hgen, earlyFail]
              omega
          | some t =>
            simp only [hgen]
            by_cases ht : t.isEmpty = true
            · rw [if_pos ht]
              simp only [earlyFail]
              omega
            · rw [if_neg ht]
              by_cases htok : (tokenize t).isEmpty = true
              · rw [if_pos htok]
                refine le_trans (ih _) ?_
                simp only []
                omega
              · rw [if_neg htok]
                refine le_trans (ih _) ?_
                have hc := processCandidates_counters probe target (tokenize t)
                  { st with attempt := st.attempt + 1, genCalls := st.genCalls + 1,
                            events := st.events ++ evs }
                rw [hc.2]
                simp only []
                omega
    · simp [finalize]

/-- The session loop preserves `totalChecked = totalRejected +
|uniqueNames|`. -/
theorem sessionGo_inv (gen : Nat → GenAction) (probe : List Char → ProbeResult)
    (target : Nat) :
    ∀ fuel st, st.totalChecked = st.totalRejected + st.uniqueNames.length →
      (sessionGo gen probe target fuel st).totalChecked =
        (sessionGo gen probe target fuel st).totalRejected +
          (sessionGo gen probe target fuel st).uniqueNames.length := by
  intro fuel
  induction fuel with
  | zero => intro st h; simpa [sessionGo, finalize] using h
  | succ fuel ih =>
    intro st h
    rw [sessionGo]
    split
    · cases hg : gen (st.attempt + 1) with
      | raiseExn => exact ih _ h
      | respond resp =>
          rcases hgen : generate_brand_names resp with ⟨bn, evs⟩
          cases bn with
          | none => simpa [hgen, earlyFail] using h
          | some t =>
            simp only [hgen]
            by_cases ht : t.isEmpty = true
            · rw [if_pos ht]
              simpa [earlyFail] using h
            · rw [if_neg ht]
              by_cases htok : (tokenize t).isEmpty = true
              · rw [if_pos htok]
                exact ih _ h
              · rw [if_neg htok]
                exact ih _ (processCandidates_inv probe target (tokenize t) _ h)
    · simpa [finalize] using h

/-- The session loop keeps the accepted list duplicate-free. -/
theorem sessionGo_nodup (gen : Nat → GenAction) (probe : List Char → ProbeResult)
    (target : Nat) :
    ∀ fuel st, st.uniqueNames.Nodup →
      (sessionGo gen probe target fuel st).uniqueNames.Nodup := by
  intro fuel
  induction fuel with
  | zero => intro st h; simpa [sessionGo, finalize] using h
  | succ fuel ih =>
    intro st h
    rw [sessionGo]
    split
    · cases hg : gen (st.attempt + 1) with
      | raiseExn => exact ih _ h
      | respond resp =>
          rcases hgen : generate_brand_names resp with ⟨bn, evs⟩
          cases bn with
          | none => simpa [hgen, earlyFail] using h
          | some t =>
            simp only [hgen]
            by_cases ht : t.isEmpty = true
            · rw [if_pos ht]
              simpa [earlyFail] using h
            · rw [if_neg ht]
              by_cases htok : (tokenize t).isEmpty = true
              · rw [if_pos htok]
                exact ih _ h
              · rw [if_neg htok]
                exact ih _ (processCandidates_nodup probe target (tokenize t) _ h)
    · simpa [finalize] using h

/-- A non-`None` normal return carries exactly the accumulated names. -/
theorem finalize_output (st : SessSt) (ns : List (List Char))
    (h : (finalize st).output = some ns) : ns = (finalize st).uniqueNames := by
  by_cases he : st.uniqueNames.isEmpty = true
  · simp [finalize, he] at h
  · simp only [finalize, he, if_false, Bool.false_eq_true, if_neg] at h ⊢
    exact (Option.some.injEq _ _ ▸ h).symm

/-- A session whose output is a list returned exactly its accumulated
unique names. -/
theorem sessionGo_output (gen : Nat → GenAction) (probe : List Char → ProbeResult)
    (target : Nat) :
    ∀ fuel st ns, (sessionGo gen probe target fuel st).output = some ns →
      ns = (sessionGo gen probe target fuel st).uniqueNames := by
  intro fuel
  induction fuel with
  | zero =>
      intro st ns h
      rw [sessionGo] at h ⊢
      exact finalize_output st ns h
  | succ fuel ih =>
    intro st ns h
    rw [sessionGo] at h ⊢
    split at h
    · rename_i hlen
      rw [if_pos hlen]
      rcases hg : gen (st.attempt + 1) with resp | _
      case raiseExn =>
          rw [hg] at h
          exact ih _ ns h
      case respond =>
          rw [hg] at h
          rcases hgen : generate_brand_names resp with ⟨bn, evs⟩
          cases bn with
          | none =>
              simp only [hgen] at h
              simp [earlyFail] at h
          | some t =>
            simp only [hgen] at h ⊢
            by_cases ht : t.isEmpty = true
            · rw [if_pos ht] at h
              simp [earlyFail] at h
            · rw [if_neg ht] at h ⊢
              by_cases htok : (tokenize t).isEmpty = true
              · rw [if_pos htok] at h ⊢
                exact ih _ ns h
              · rw [if_neg htok] at h ⊢
                exact ih _ ns h
    · rename_i hlen
      rw [if_neg hlen]
      exact finalize_output st ns h

/-! Claim theorems. -/

/-- C1: for every session run with attempt budget `k` (3 in the code),
`generate_names_with_domain_validation` calls the generation client
(`generate_brand_names`) at most `k` times before the session
terminates, regardless of what the generator or the heuristic returns. -/
theorem c1_generation_call_bound (gen : Nat → GenAction)
    (probe : List Char → ProbeResult) (target k : Nat) :
    (runSession gen probe target k).genCalls ≤ k := by
  have h := sessionGo_genCalls gen probe target k initSt
  simpa [runSession, initSt] using h

/-- C2: whenever some registry lookup for the cleaned name raises a
timeout or any exception other than name-not-found, the verdict of
`check_domain_availability` is `False` (Taken), never Available. -/
theorem c2_probe_error_never_available (name : List Char)
    (probe : List Char → ProbeResult)
    (h : ∃ ext ∈ extensions, probe (cleanName name ++ ext) = ProbeResult.timeout
        ∨ probe (cleanName name ++ ext) = ProbeResult.error) :
    check_domain_availability probe name = false := by
  unfold check_domain_availability check_domain_availability_t
  split
  · rfl
  · split
    · rfl
    · split
      · rfl
      · unfold checkAfterShape
        have hv := probeLoop_verdict_eq_false probe (cleanName name) extensions 0
          (probeLoop_verdict_isSome probe (cleanName name) extensions 0 h)
        simp [hv]

/-- Witness for C2: a concrete name under an always-timeout probe is
judged Taken. -/
theorem c2_witness :
    check_domain_availability (fun _ => ProbeResult.timeout) (("Zephyra").data) = false :=
  c2_probe_error_never_available (("Zephyra").data) (fun _ => ProbeResult.timeout)
    ⟨(".com").data, by decide, Or.inl rfl⟩

/-- C3 counterexample: the name "Brandtech" contains the blocklisted
generic term "tech" as a substring, yet under a probe that reports
every domain as unregistered `check_domain_availability` returns `True`
(Available) — the blocklist is applied to the suffix-stripped form
("brand"), not to the input name.  This falsifies C3 as stated. -/
theorem c3_counterexample :
    (("tech").data ∈ common_patterns
      ∧ isSubstring (("tech").data) (pyLower (("Brandtech").data)) = true)
    ∧ check_domain_availability (fun _ => ProbeResult.notFound) (("Brandtech").data) = true :=
  ⟨⟨by decide, by decide⟩, by decide⟩

/-- C3 amended: for every name whose cleaned form (lowercased,
separators removed, corporate suffixes stripped) is flagged by the
business-name pattern detector — in particular whenever that cleaned
form still contains a blocklisted generic/tech term — the verdict is
Taken under every probe behaviour. -/
theorem c3_amended_normalized_blocklist (name : List Char)
    (probe : List Char → ProbeResult)
    (h : is_likely_taken_business_name (cleanName name) = true) :
    check_domain_availability probe name = false := by
  unfold check_domain_availability check_domain_availability_t
  split
  · rfl
  · split
    · rfl
    · split
      · rfl
      · unfold checkAfterShape
        rcases hv : (probeLoop probe (cleanName name) extensions 0).verdict with _ | b
        · simp [hv, checkPattern, h]
        · have hb : b = false := by
            cases b
            · rfl
            · exact absurd hv (probeLoop_verdict_ne_true probe (cleanName name) extensions 0)
          subst hb
          simp [hv]

/-- Witness for C3 amended: the cleaned form of "Techzxqv" keeps the
blocklisted term and the verdict is Taken even when every lookup
reports the domain unregistered. -/
theorem c3_amended_witness :
    is_likely_taken_business_name (cleanName (("Techzxqv").data)) = true
    ∧ check_domain_availability (fun _ => ProbeResult.notFound) (("Techzxqv").data) = false :=
  ⟨by decide,
    c3_amended_normalized_blocklist (("Techzxqv").data) (fun _ => ProbeResult.notFound)
      (by decide)⟩

/-- Unfolding of the shape guard as a disjunction. -/
theorem shapeRejected_iff (name : List Char) :
    shapeRejected name = true ↔ (pyStrip name).isEmpty = true
      ∨ (cleanName name).length < 2
      ∨ (cleanName name).all isAlnumChar = false := by
  unfold shapeRejected
  cases h1 : (pyStrip name).isEmpty <;>
    cases h3 : (cleanName name).all isAlnumChar <;>
      by_cases h2 : (cleanName name).length < 2 <;>
        simp [h1, h2, h3]

/-- C4 counterexample: the cleaned form of "Techzxqv" is rejected by
the lexical blocklist, yet the code still performs all seven network
lookups for it — the probe layer runs before the blocklist, so the
pipeline is not cheap-first as claimed. -/
theorem c4_counterexample :
    is_likely_taken_business_name (cleanName (("Techzxqv").data)) = true
    ∧ (check_domain_availability_t (fun _ => ProbeResult.notFound)
        (("Techzxqv").data)).probed.length = 7 :=
  ⟨by decide, by decide⟩

/-- C4 amended: only the shape checks precede the network probes; the
probe loop runs before the lexical blocklist and pattern checks, which
are evaluated only when every probe completed without rejecting, and
whenever the pattern layer is skipped the verdict is already Taken. -/
theorem c4_amended_probe_before_pattern (name : List Char)
    (probe : List Char → ProbeResult) :
    (shapeRejected name = true →
        (check_domain_availability_t probe name).probed = []
          ∧ (check_domain_availability_t probe name).patternChecked = false)
    ∧ ((check_domain_availability_t probe name).patternChecked = true →
        (check_domain_availability_t probe name).probed.length = extensions.length)
    ∧ ((check_domain_availability_t probe name).patternChecked = false →
        (check_domain_availability_t probe name).result = false) := by
  unfold check_domain_availability_t
  split
  · exact ⟨fun _ => ⟨rfl, rfl⟩, fun hpc => absurd hpc (by simp), fun _ => rfl⟩
  · split
    · exact ⟨fun _ => ⟨rfl, rfl⟩, fun hpc => absurd hpc (by simp), fun _ => rfl⟩
    · split
      · exact ⟨fun _ => ⟨rfl, rfl⟩, fun hpc => absurd hpc (by simp), fun _ => rfl⟩
      · rename_i h1 h2 h3
        refine ⟨fun hs => ?_, ?_⟩
        · rcases (shapeRejected_iff name).mp hs with ha | hb | hc
          · exact absurd ha h1
          · exact absurd hb h2
          · exact absurd hc (by simpa using h3)
        · unfold checkAfterShape
          rcases hv : (probeLoop probe (cleanName name) extensions 0).verdict with _ | b
          · constructor
            · intro _
              have hp := (checkPattern_patternChecked (cleanName name)
                (probeLoop probe (cleanName name) extensions 0).takenCount
                (probeLoop probe (cleanName name) extensions 0).probed).2
              simp only [hv, hp]
              exact probeLoop_none_probed_length probe (cleanName name) extensions 0 hv
            · intro hpc
              have hp := (checkPattern_patternChecked (cleanName name)
                (probeLoop probe (cleanName name) extensions 0).takenCount
                (probeLoop probe (cleanName name) extensions 0).probed).1
              simp only [hv] at hpc
              exact absurd hp (by simp [hpc])
          · have hb : b = false := by
              cases b
              · rfl
              · exact absurd hv
                  (probeLoop_verdict_ne_true probe (cleanName name) extensions 0)
            subst hb
            constructor
            · intro hpc
              simp [hv] at hpc
            · intro _
              simp [hv]

/-- Witness for C4 amended: the shape-rejected name "x@" is never
probed; "Zephyra" under an all-unregistered probe reaches the pattern
layer only after all seven lookups; under an always-timeout probe the
pattern layer is skipped and the verdict is Taken. -/
theorem c4_amended_witness :
    ((check_domain_availability_t (fun _ => ProbeResult.notFound) (("x@").data)).probed = []
      ∧ (check_domain_availability_t (fun _ => ProbeResult.notFound)
          (("x@").data)).patternChecked = false)
    ∧ (check_domain_availability_t (fun _ => ProbeResult.notFound)
        (("Zephyra").data)).probed.length = extensions.length
    ∧ (check_domain_availability_t (fun _ => ProbeResult.timeout)
        (("Zephyra").data)).result = false :=
  ⟨(c4_amended_probe_before_pattern (("x@").data) (fun _ => ProbeResult.notFound)).1
      (by decide),
    (c4_amended_probe_before_pattern (("Zephyra").data) (fun _ => ProbeResult.notFound)).2.1
      (by decide),
    (c4_amended_probe_before_pattern (("Zephyra").data) (fun _ => ProbeResult.timeout)).2.2
      (by decide)⟩

/-- C5 counterexample: for the input "Brand Digital Tech" the
separator-stripped lowercase form is "branddigitaltech" and the
normalized form is "brand": the suffix loop removed both "tech" and
"digital", so the two forms do not differ by the removal of at most one
suffix from the fixed list. -/
theorem c5_counterexample :
    stripSeparators (pyStrip (pyLower (("Brand Digital Tech").data))) =
        ("branddigitaltech").data
    ∧ cleanName (("Brand Digital Tech").data) = ("brand").data
    ∧ ¬(("branddigitaltech").data = ("brand").data
        ∨ ∃ suf ∈ business_suffixes,
            ("branddigitaltech").data = ("brand").data ++ suf) :=
  ⟨by decide, by decide, by decide⟩

/-- Decomposition of the suffix-stripping fold: the input is the
stripped result followed by the removed suffixes in reverse strip
order, and the removed suffixes form a subsequence of the iterated
list (so each listed suffix is removed at most once, in list order). -/
theorem stripFold_decomp (L : List (List Char)) :
    ∀ s : List Char, ∃ l : List (List Char), List.Sublist l L
      ∧ s = L.foldl stripOnce s ++ (l.reverse).flatten := by
  induction L with
  | nil =>
      intro s
      exact ⟨[], List.Sublist.refl [], by simp⟩
  | cons suf rest ih =>
    intro s
    by_cases hsuf : suf.isSuffixOf s
    · rcases (List.isSuffixOf_iff_suffix).mp hsuf with ⟨t, ht⟩
      have htake : stripOnce s suf = t := by
        rw [stripOnce, if_pos hsuf, ← ht]
        have hlen : (t ++ suf).length - suf.length = t.length := by simp
        rw [hlen, List.take_left]
      rcases ih (stripOnce s suf) with ⟨l, hl, hs⟩
      refine ⟨suf :: l, List.Sublist.cons₂ suf hl, ?_⟩
      have : List.foldl stripOnce s (suf :: rest) =
          List.foldl stripOnce (stripOnce s suf) rest := rfl
      rw [this, List.reverse_cons, List.flatten_append]
      calc s = t ++ suf := ht.symm
        _ = (List.foldl stripOnce (stripOnce s suf) rest ++ (l.reverse).flatten) ++ suf := by
              rw [← htake, ← hs]
        _ = List.foldl stripOnce (stripOnce s suf) rest ++ ((l.reverse).flatten ++ ([suf]).flatten) := by
              simp
    · have hstep : stripOnce s suf = s := by rw [stripOnce, if_neg hsuf]
      rcases ih s with ⟨l, hl, hs⟩
      refine ⟨l, List.Sublist.cons suf hl, ?_⟩
      have : List.foldl stripOnce s (suf :: rest) =
          List.foldl stripOnce (stripOnce s suf) rest := rfl
      rw [this, hstep]
      exact hs

/-- C5 amended: the normalization iterates once through the fixed
suffix list in order, removing each listed suffix at most once when the
current name ends with it; hence the separator-stripped form equals the
normalized form followed by the removed suffixes (a subsequence of the
fixed list, possibly more than one element) in reverse removal order. -/
theorem c5_amended_suffix_strip (s : List Char) :
    ∃ l : List (List Char), List.Sublist l business_suffixes
      ∧ s = stripSuffixes s ++ (l.reverse).flatten :=
  stripFold_decomp business_suffixes s

/-- C6 counterexample: a generator returning the two case-variants
"Zephyra" and "ZEPHYRA" (both judged available under an
all-unregistered probe) makes the session accept both, so the accepted
list holds two names equal ignoring case — deduplication is
case-sensitive, not case-insensitive as claimed. -/
theorem c6_counterexample :
    (runSession (fun _ => GenAction.respond (some (("Zephyra\nZEPHYRA").data)))
        (fun _ => ProbeResult.notFound) 2 3).uniqueNames =
      [("Zephyra").data, ("ZEPHYRA").data]
    ∧ pyLower (("Zephyra").data) = pyLower (("ZEPHYRA").data)
    ∧ (("Zephyra").data) ≠ (("ZEPHYRA").data) :=
  ⟨by decide, by decide, by decide⟩

/-- C6 amended: deduplication is by exact (case-sensitive) string
equality with first-seen order: the accepted list never contains two
identical strings, though it may contain two names differing only by
case. -/
theorem c6_amended_dedup_exact (gen : Nat → GenAction)
    (probe : List Char → ProbeResult) (target maxAttempts : Nat) :
    (runSession gen probe target maxAttempts).uniqueNames.Nodup :=
  sessionGo_nodup gen probe target maxAttempts initSt (by simp [initSt])

/-- C7 counterexample: tokenizing the spec example yields
") Novaly" for the first line, not "Novaly": the `lstrip` character set
contains no closing parenthesis, so the claimed output is wrong. -/
theorem c7_counterexample :
    tokenize (("1) Novaly\n2. Bluemint\n- Nexora").data) =
      [(") Novaly").data, ("Bluemint").data, ("Nexora").data]
    ∧ tokenize (("1) Novaly\n2. Bluemint\n- Nexora").data) ≠
      [("Novaly").data, ("Bluemint").data, ("Nexora").data] :=
  ⟨by decide, by decide⟩

/-- C7 amended: after trimming surrounding whitespace the tokenizer
strips leading characters from the set digits, dot, space, hyphen,
bullet, asterisk (closing parentheses, colons and trailing punctuation
are not stripped) and keeps only lines longer than 1 character; the
example therefore yields ") Novaly", "Bluemint", "Nexora". -/
theorem c7_amended_tokenizer (raw : List Char) (t : List Char)
    (h : t ∈ tokenize raw) :
    2 ≤ t.length
    ∧ tokenize (("1) Novaly\n2. Bluemint\n- Nexora").data) =
        [(") Novaly").data, ("Bluemint").data, ("Nexora").data] := by
  constructor
  · simp only [tokenize, List.mem_filterMap] at h
    rcases h with ⟨line, _, hline⟩
    split at hline
    · rename_i hlen
      cases hline
      omega
    · cases hline
  · decide

/-- Witness for C7 amended at the token "Bluemint" of the example. -/
theorem c7_amended_witness :
    2 ≤ (("Bluemint").data).length
    ∧ tokenize (("1) Novaly\n2. Bluemint\n- Nexora").data) =
        [(") Novaly").data, ("Bluemint").data, ("Nexora").data] :=
  c7_amended_tokenizer (("1) Novaly\n2. Bluemint\n- Nexora").data)
    (("Bluemint").data) (by decide)

/-- C8 counterexample: the generator succeeds on attempt 1 (two names
accepted, target 5 not reached) and returns empty on attempt 2 of 3.
Attempt 2 is not the final permitted attempt, yet the session
terminates there with output `None`, discarding the two accumulated
names instead of continuing to attempt 3. -/
theorem c8_counterexample :
    (runSession
        (fun n => if n = 1 then GenAction.respond (some (("Zephyra\nQuillara").data))
          else GenAction.respond none)
        (fun _ => ProbeResult.notFound) 5 3).output = none
    ∧ (runSession
        (fun n => if n = 1 then GenAction.respond (some (("Zephyra\nQuillara").data))
          else GenAction.respond none)
        (fun _ => ProbeResult.notFound) 5 3).attempts = 2
    ∧ (runSession
        (fun n => if n = 1 then GenAction.respond (some (("Zephyra\nQuillara").data))
          else GenAction.respond none)
        (fun _ => ProbeResult.notFound) 5 3).uniqueNames =
      [("Zephyra").data, ("Quillara").data] :=
  ⟨by decide, by decide, by decide⟩

/-- C8 amended: a `None`/empty generation result terminates the session
immediately with a `None` output on any attempt, even a non-final one,
so the accumulated names are not returned; a raised exception, by
contrast, appends a failure event and continues to the next attempt
with the accumulated names retained. -/
theorem c8_amended_failure_modes (gen : Nat → GenAction)
    (probe : List Char → ProbeResult) (target fuel : Nat) (st : SessSt)
    (hlen : st.uniqueNames.length < target) :
    (gen (st.attempt + 1) = GenAction.respond none →
      sessionGo gen probe target (fuel + 1) st =
        earlyFail { st with attempt := st.attempt + 1, genCalls := st.genCalls + 1,
                            events := st.events ++ [Event.genFailedError] })
    ∧ (gen (st.attempt + 1) = GenAction.raiseExn →
      sessionGo gen probe target (fuel + 1) st =
        sessionGo gen probe target fuel
          { st with attempt := st.attempt + 1, genCalls := st.genCalls + 1,
                    events := st.events ++ [Event.attemptFailed (st.attempt + 1)] }) := by
  constructor
  · intro h
    rw [sessionGo, if_pos hlen, h]
    simp [generate_brand_names, earlyFail]
  · intro h
    rw [sessionGo, if_pos hlen, h]

/-- Witness for C8 amended: a session whose generator returns `None` on
the first of three attempts ends immediately in the failure state. -/
theorem c8_amended_witness :
    sessionGo (fun _ => GenAction.respond none) (fun _ => ProbeResult.notFound) 5 3 initSt =
      earlyFail { initSt with attempt := 1, genCalls := 1,
                              events := [Event.genFailedError] } :=
  (c8_amended_failure_modes (fun _ => GenAction.respond none)
      (fun _ => ProbeResult.notFound) 5 2 initSt (by decide)).1 rfl

/-- C9: when the generation backend signals the rate limit on the first
call, the session ends after exactly one generation call (of the budget
of 3) with a `None` result, and the rate-limit condition is reported by
its own distinct event ahead of the generic failure event. -/
theorem c9_rate_limit_short_circuit (gen : Nat → GenAction)
    (probe : List Char → ProbeResult) (target : Nat)
    (h1 : gen 1 = GenAction.respond (some RATE_LIMIT)) (h2 : 0 < target) :
    (runSession gen probe target 3).genCalls = 1
    ∧ (runSession gen probe target 3).attempts = 1
    ∧ (runSession gen probe target 3).output = none
    ∧ (runSession gen probe target 3).events =
        [Event.rateLimitWarning, Event.genFailedError]
    ∧ Event.rateLimitWarning ≠ Event.genFailedError := by
  have hrun : runSession gen probe target 3 =
      earlyFail { initSt with attempt := 1, genCalls := 1,
                              events := [Event.rateLimitWarning, Event.genFailedError] } := by
    rw [runSession, show (3 : Nat) = 2 + 1 from rfl, sessionGo]
    rw [if_pos (by simpa [initSt] using h2)]
    rw [show initSt.attempt + 1 = 1 from rfl, h1]
    simp [generate_brand_names, earlyFail, initSt]
  rw [hrun]
  exact ⟨rfl, rfl, rfl, rfl, by decide⟩

/-- Witness for C9 with a concrete always-rate-limited generator. -/
theorem c9_witness :
    (runSession (fun _ => GenAction.respond (some RATE_LIMIT))
        (fun _ => ProbeResult.notFound) 5 3).genCalls = 1
    ∧ (runSession (fun _ => GenAction.respond (some RATE_LIMIT))
        (fun _ => ProbeResult.notFound) 5 3).events =
      [Event.rateLimitWarning, Event.genFailedError] :=
  ⟨(c9_rate_limit_short_circuit (fun _ => GenAction.respond (some RATE_LIMIT))
      (fun _ => ProbeResult.notFound) 5 rfl (by decide)).1,
    (c9_rate_limit_short_circuit (fun _ => GenAction.respond (some RATE_LIMIT))
      (fun _ => ProbeResult.notFound) 5 rfl (by decide)).2.2.2.1⟩

/-- C10: throughout a session each checked candidate is counted exactly
once as accepted or rejected: the candidate loop preserves
`checked = rejected + accepted.size` after every evaluation, the final
session statistics satisfy it, and merging them into cumulative
counters that satisfy the analogous invariant preserves it. -/
theorem c10_stats_invariant (gen : Nat → GenAction)
    (probe : List Char → ProbeResult) (target maxAttempts : Nat)
    (g : GlobalStats)
    (hg : g.total_checked = g.total_rejected + g.total_approved) :
    (∀ names st, st.totalChecked = st.totalRejected + st.uniqueNames.length →
      (processCandidates probe target names st).totalChecked =
        (processCandidates probe target names st).totalRejected +
          (processCandidates probe target names st).uniqueNames.length)
    ∧ (runSession gen probe target maxAttempts).totalChecked =
        (runSession gen probe target maxAttempts).totalRejected +
          (runSession gen probe target maxAttempts).uniqueNames.length
    ∧ (mergeStats g (runSession gen probe target maxAttempts)).total_checked =
        (mergeStats g (runSession gen probe target maxAttempts)).total_rejected +
          (mergeStats g (runSession gen probe target maxAttempts)).total_approved := by
  have hrun := sessionGo_inv gen probe target maxAttempts initSt (by simp [initSt])
  refine ⟨processCandidates_inv probe target, hrun, ?_⟩
  rcases ho : (runSession gen probe target maxAttempts).output with _ | names
  · simp only [mergeStats, ho]
    exact hg
  · have hn := sessionGo_output gen probe target maxAttempts initSt names ho
    simp only [mergeStats, ho]
    rw [hn]
    simp only [runSession] at hrun ⊢
    omega

/-- Witness for C10 at a concrete session and zeroed global counters. -/
theorem c10_witness :
    (runSession (fun _ => GenAction.raiseExn) (fun _ => ProbeResult.notFound)
        1 1).totalChecked =
      (runSession (fun _ => GenAction.raiseExn) (fun _ => ProbeResult.notFound)
        1 1).totalRejected +
        (runSession (fun _ => GenAction.raiseExn) (fun _ => ProbeResult.notFound)
          1 1).uniqueNames.length
    ∧ (mergeStats ⟨0, 0, 0⟩
        (runSession (fun _ => GenAction.raiseExn) (fun _ => ProbeResult.notFound)
          1 1)).total_checked =
      (mergeStats ⟨0, 0, 0⟩
        (runSession (fun _ => GenAction.raiseExn) (fun _ => ProbeResult.notFound)
          1 1)).total_rejected +
        (mergeStats ⟨0, 0, 0⟩
          (runSession (fun _ => GenAction.raiseExn) (fun _ => ProbeResult.notFound)
            1 1)).total_approved :=
  ⟨(c10_stats_invariant (fun _ => GenAction.raiseExn) (fun _ => ProbeResult.notFound)
      1 1 ⟨0, 0, 0⟩ rfl).2.1,
    (c10_stats_invariant (fun _ => GenAction.raiseExn) (fun _ => ProbeResult.notFound)
      1 1 ⟨0, 0, 0⟩ rfl).2.2⟩

end BrandGen
